import Mathlib

/-!
Verification development for the gojet repository: a symbolic (shallow)
embedding of the JWT token service (`util/jwt`, built on golang-jwt/jwt v5),
the auth middleware, the unified response helpers (`util/response`), the
application error type (`util/apperror`), the user model and DAO, the login
service, and the data-seeding bootstrap step (`service.CreateInitialData`).

Modelling conventions:
* Machine time is Unix seconds carried as an explicit `now : Int` parameter
  (the Go code calls `time.Now()`; sub-second precision is immaterial to the
  second-granularity `exp`/`nbf`/`iat` claims).
* The HMAC is modelled symbolically (perfect cryptography): a MAC tag is the
  free term `⟨algorithm, payload, key⟩`, so two tags are equal exactly when
  algorithm, signed payload and key coincide.  This is the standard symbolic
  abstraction of an unforgeable, collision-free MAC.
* The JWS compact serialization (base64url + JSON) is abstracted to an
  injective encoding: a header string either decodes to a structured token
  (`CompactToken.wellFormed`) or fails to decode (`CompactToken.garbage`).
  JSON claim values that matter here are numbers and strings (`CVal`);
  Go deserializes JSON numbers as float64, which is exact on the integer
  ids used by this service.
-/

/-- JWT signing algorithms (the `alg` header field) relevant to the code:
the HMAC family plus representative non-HMAC algorithms. -/
inductive Alg where
  | HS256
  | HS384
  | HS512
  | algNone
  | RS256
deriving DecidableEq, Repr

/-- Mirrors the Go type assertion `token.Method.(*jwt.SigningMethodHMAC)`
in `secretFunc`: true exactly for the HMAC family of signing methods. -/
def Alg.isHMAC : Alg → Bool
  | .HS256 => true
  | .HS384 => true
  | .HS512 => true
  | _ => false

/-- A JSON claim value as deserialized by golang-jwt into `MapClaims`:
numbers (Go float64, exact on the integers used here) and strings. -/
inductive CVal where
  | num (n : Int)
  | str (s : String)
deriving DecidableEq, Repr

/-- A claim set (`jwt.MapClaims`), modelled as an association list of
claim name to value (keys unique, as in a JSON object). -/
abbrev Payload := List (String × CVal)

/-- Map lookup `claims[k]` on a `MapClaims` value. -/
def lookupClaim (p : Payload) (k : String) : Option CVal :=
  match p with
  | [] => none
  | (k2, v) :: rest => if k2 = k then some v else lookupClaim rest k

namespace jwtlib

/-- A symbolic HMAC tag: the free term of the algorithm, the signed bytes
(header+payload) and the key.  Perfect-cryptography abstraction: tags are
equal iff all three components are. -/
structure MacTag where
  alg : Alg
  payload : Payload
  key : String
deriving DecidableEq, Repr

/-- Computing the MAC of a header+payload under a key (what
`SignedString` does for HMAC methods, and what `Method.Verify`
recomputes). -/
def hmacSign (alg : Alg) (payload : Payload) (key : String) : MacTag :=
  ⟨alg, payload, key⟩

/-- A decoded JWS token: `alg` header field, claim set, and the signature
segment. -/
structure Token where
  alg : Alg
  payload : Payload
  sig : MacTag
deriving DecidableEq, Repr

/-- The compact serialization handed to `jwt.Parse`: either it decodes to a
structured token, or it is garbage that fails base64/JSON decoding. -/
inductive CompactToken where
  | wellFormed (t : Token)
  | garbage
deriving DecidableEq, Repr

/-- Error classes returned by golang-jwt v5 `Parser.ParseWithClaims`, in the
order the parser can produce them. -/
inductive ParseErr where
  | malformed
  | unverifiable
  | signatureInvalid
  | invalidClaims
deriving DecidableEq, Repr

/-- The `exp` check of the v5 default validator (`verifyExpiresAt` with zero
leeway, claim optional): valid iff `exp` is absent or `now` is strictly
before it; a present non-numeric `exp` is a claims error. -/
def expOk (p : Payload) (now : Int) : Bool :=
  match lookupClaim p "exp" with
  | none => true
  | some (.num e) => decide (now < e)
  | some _ => false

/-- The `nbf` check of the v5 default validator (`verifyNotBefore` with zero
leeway, claim optional): valid iff `nbf` is absent or `now` is at or after
it; a present non-numeric `nbf` is a claims error. -/
def nbfOk (p : Payload) (now : Int) : Bool :=
  match lookupClaim p "nbf" with
  | none => true
  | some (.num nb) => decide (nb ≤ now)
  | some _ => false

/-- The v5 default `Validator.Validate` on `MapClaims`: checks `exp` and
`nbf`; `iat` is only verified when the (disabled by default) option is set. -/
def validateClaims (p : Payload) (now : Int) : Bool :=
  expOk p now && nbfOk p now

/-- What golang-jwt v5 `Parse` returns, as used by the caller: the claim set
(`token.Claims` as `MapClaims`), the `token.Valid` flag, and the returned
error (none exactly on full success). -/
structure ParseRet where
  claims : Payload
  valid : Bool
  err : Option ParseErr
deriving DecidableEq, Repr

/-- golang-jwt v5 `Parser.Parse` with default options: decode the compact
serialization, run the keyfunc (which may reject the algorithm), verify the
signature with the returned key, then validate the registered claims; the
token is marked valid only when every step succeeded, and every failure
surfaces as a non-nil error. -/
def parse (input : CompactToken) (keyfunc : Token → Except Unit String)
    (now : Int) : ParseRet :=
  match input with
  | .garbage => ⟨[], false, some .malformed⟩
  | .wellFormed t =>
    match keyfunc t with
    | .error _ => ⟨t.payload, false, some .unverifiable⟩
    | .ok key =>
      if t.sig = hmacSign t.alg t.payload key then
        if validateClaims t.payload now then
          ⟨t.payload, true, none⟩
        else
          ⟨t.payload, false, some .invalidClaims⟩
      else
        ⟨t.payload, false, some .signatureInvalid⟩

end jwtlib

namespace response

/-- The JSON body produced by `response.Error` / `response.Success`
together with the HTTP status it is written with. -/
structure Resp where
  httpStatus : Nat
  code : Nat
  message : String
deriving DecidableEq, Repr

def MsgInternalError : String := "服务器内部错误"
def MsgDBQueryError : String := "数据查询失败"
def MsgRecordNotFound : String := "记录不存在"
def MsgUserNotFound : String := "用户不存在"
def MsgAuthFailed : String := "认证失败"
def MsgTokenMissing : String := "令牌缺失"
def MsgTokenExpired : String := "令牌已过期"
def MsgTokenInvalid : String := "无效的令牌"

/-- The `switch code` in `response.Error` choosing the HTTP status (note the
initial value `http.StatusBadRequest` is the default for unknown codes). -/
def errorHttpCode (code : Nat) : Nat :=
  match code with
  | 400 => 400
  | 401 => 401
  | 403 => 403
  | 404 => 404
  | 500 => 500
  | _ => 400

/-- Model of `response.Error(c, code, message)`. -/
def Error (code : Nat) (message : String) : Resp :=
  ⟨errorHttpCode code, code, message⟩

/-- Model of `response.BadRequest`. -/
def BadRequest (message : String) : Resp := Error 400 message

/-- Model of `response.NotFound`. -/
def NotFound (message : String) : Resp := Error 404 message

/-- Model of `response.InternalServerError`. -/
def InternalServerError (message : String) : Resp := Error 500 message

/-- Model of `response.Success(c, message, data)` (the body code is 200 and
the HTTP status is 200; an empty message becomes the generic one). -/
def Success (message : String) : Resp :=
  ⟨200, 200, if message = "" then "操作成功" else message⟩

end response

/-- The application error chain: `*apperror.Error` carries a business code,
a client-facing message and an optional wrapped error; other (library)
errors are opaque values that are not `*apperror.Error`. -/
inductive GoError where
  | app (code : Nat) (message : String) (wrapped : Option GoError)
  | lib (tag : String)
deriving Repr

namespace apperror

/-- Model of `apperror.New(code, message)`. -/
def New (code : Nat) (message : String) : GoError := .app code message none

/-- Model of `apperror.Wrap(err, code, message)`. -/
def Wrap (err : GoError) (code : Nat) (message : String) : GoError :=
  .app code message (some err)

end apperror

namespace response

/-- Model of `response.HandleError`: if the error is an `*apperror.Error`
(`errors.As` matches the outermost one), dispatch on its code — note the
switch has cases only for 400, 404 and 500, every other code (401 and 403
included) falls to the default `InternalServerError` branch; a non-app
error yields the generic internal error. -/
def HandleError : GoError → Resp
  | .app code message _ =>
    match code with
    | 400 => BadRequest message
    | 404 => NotFound message
    | 500 => InternalServerError message
    | _ => InternalServerError message
  | .lib _ => InternalServerError MsgInternalError

end response

/-- The identity injected into the request context on successful token
verification (`c.Set("userid", ...)`, `c.Set("username", ...)`). -/
structure AuthCtx where
  userid : Int
  username : String
deriving DecidableEq, Repr

/-- Per-request outcome of the auth middleware: `next ctx` models `c.Next()`
(with the identity injected into the context on verified requests, `none` on
allow-listed anonymous ones), `reject` models `response.Error` followed by
`c.Abort()` (no downstream handler runs), and `panicked` models a runtime
panic inside the middleware (a failed type assertion). -/
inductive MwOutcome where
  | next (ctx : Option AuthCtx)
  | reject (resp : response.Resp)
  | panicked
deriving DecidableEq, Repr

/-- The `Authorization` header value: absent/empty, a token string with the
`Bearer ` scheme prefix, or a bare token string.  The compact token string
itself is abstracted to its decoding (see `jwtlib.CompactToken`). -/
inductive HeaderVal where
  | empty
  | bearer (t : jwtlib.CompactToken)
  | plain (t : jwtlib.CompactToken)
deriving DecidableEq, Repr

/-- The part of an HTTP request the middleware inspects: URL path and
`Authorization` header. -/
structure Request where
  path : String
  header : HeaderVal
deriving DecidableEq, Repr

/-- Splitting a character list at every occurrence of `sep`, keeping empty
segments — the semantics of Go `strings.Split` for a one-character
separator.  Structural recursion, so it evaluates by `rfl`. -/
def splitChars (sep : Char) : List Char → List (List Char)
  | [] => [[]]
  | c :: rest =>
    if c = sep then
      [] :: splitChars sep rest
    else
      match splitChars sep rest with
      | [] => [[c]]
      | seg :: segs => (c :: seg) :: segs

/-- Go `strings.Split(s, sep)` for the one-character separator the
middleware uses; always returns a non-empty list (`[""]` on the empty
string), like the Go function. -/
def goSplit (s : String) (sep : Char) : List String :=
  (splitChars sep s.data).map (fun cs => ⟨cs⟩)

namespace jwt

/-- Model of `jwt.Context` (util/jwt): the identity embedded into a signed
token. -/
structure Context where
  ID : Int
  Username : String
deriving DecidableEq, Repr

/-- Model of `jwt.Sign(c, secret, duration)`: a token with claims
`id`, `username`, `nbf = now`, `iat = now`, `exp = now + duration`, signed
with HS256 under `secret`.  `durationSec` is the duration in whole seconds
(Go passes a `time.Duration`; the claims keep Unix-second granularity). -/
def Sign (c : Context) (secret : String) (durationSec : Int) (now : Int) :
    jwtlib.Token :=
  let payload : Payload :=
    [("id", .num c.ID),
     ("username", .str c.Username),
     ("nbf", .num now),
     ("iat", .num now),
     ("exp", .num (now + durationSec))]
  ⟨.HS256, payload, jwtlib.hmacSign .HS256 payload secret⟩

/-- Model of `secretFunc(secret)`: the keyfunc handed to `jwt.Parse`; it
rejects any token whose signing method is not in the HMAC family
(`jwt.ErrSignatureInvalid`) and otherwise returns the secret bytes. -/
def secretFunc (secret : String) (token : jwtlib.Token) : Except Unit String :=
  if token.alg.isHMAC then .ok secret else .error ()

/-- Model of `parseToken(tokenString, secret, c)`: parse the token; any
parse error (malformed token, wrong algorithm, bad signature, expired or
otherwise invalid claims) answers 403 `MsgTokenInvalid` and aborts; on a
valid token the unchecked type assertions `claims["id"].(float64)` and
`claims["username"].(string)` extract the identity (panicking when the
claim is absent or of the wrong type) and the request proceeds; the final
branch answers 403 `MsgTokenExpired`. -/
def parseToken (tokenString : jwtlib.CompactToken) (secret : String)
    (now : Int) : MwOutcome :=
  let ret := jwtlib.parse tokenString (secretFunc secret) now
  if ret.err.isSome then
    .reject (response.Error 403 response.MsgTokenInvalid)
  else if ret.valid then
    match lookupClaim ret.claims "id", lookupClaim ret.claims "username" with
    | some (.num userID), some (.str username) =>
      .next (some ⟨userID, username⟩)
    | _, _ => .panicked
  else
    .reject (response.Error 403 response.MsgTokenExpired)

/-- The allow-list entries registered during bootstrap
(`jwt.SkipRouter["login"] = true`, `"register"`, `"health"`). -/
def SkipRouter : List String := ["login", "register", "health"]

/-- Go `strings.Replace(header, "Bearer ", "", 1)` on the header value:
strips an optional leading `Bearer ` scheme, leaving the compact token. -/
def stripBearer : HeaderVal → jwtlib.CompactToken
  | .empty => .garbage
  | .bearer t => t
  | .plain t => t

/-- Model of the middleware `jwt.Token(c)`: split the URL path on `/`; if
the final segment is in the allow-list, proceed without touching any
header; otherwise an absent/empty `Authorization` header answers 403
`MsgTokenMissing` and aborts; otherwise strip the optional `Bearer ` prefix
and hand the token to `parseToken`.  `skipRouter` is the package-level
`SkipRouter` map and `secret` the `jwt-secret` context value installed at
bootstrap. -/
def Token (skipRouter : List String) (req : Request) (secret : String)
    (now : Int) : MwOutcome :=
  let path := goSplit req.path '/'
  let lastPath := path.getLastD ""
  if skipRouter.contains lastPath then
    .next none
  else if req.header = .empty then
    .reject (response.Error 403 response.MsgTokenMissing)
  else
    parseToken (stripBearer req.header) secret now

end jwt

namespace models

/-- A bcrypt hash, modelled symbolically as a perfect one-way hash of the
plaintext (the per-call salt only affects the hash bytes, not the behaviour
of `CompareHashAndPassword`, which succeeds exactly on the hashed
plaintext). -/
structure BHash where
  plain : String
deriving DecidableEq, Repr

/-- Model of `models.HashPassword` (bcrypt.GenerateFromPassword). -/
def HashPassword (password : String) : BHash := ⟨password⟩

/-- Model of `models.User` (the auth variant with credentials): id,
username, nickname, bcrypt password hash, email. -/
structure User where
  ID : Int
  Username : String
  NickName : String
  Password : BHash
  Email : String
deriving DecidableEq, Repr

/-- Model of `(*User).CompareSimple`: bcrypt.CompareHashAndPassword of the
stored hash against the supplied password. -/
def User.CompareSimple (u : User) (password : String) : Bool :=
  u.Password == HashPassword password

end models

namespace dao

/-- The user store as seen through GORM: either a healthy store with its
rows, or a store whose queries fail (connection outage etc.). -/
inductive Store where
  | healthy (users : List models.User)
  | down
deriving Repr

/-- Model of `(*UserRepository).GetUserByUserName`: `First` on
`username = ?`; `gorm.ErrRecordNotFound` becomes `apperror.New(404,
MsgRecordNotFound)`, any other query error is wrapped as
`apperror.Wrap(err, 500, MsgDBQueryError)`. -/
def GetUserByUserName (db : Store) (username : String) :
    Except GoError models.User :=
  match db with
  | .down => .error (apperror.Wrap (.lib "gorm") 500 response.MsgDBQueryError)
  | .healthy users =>
    match users.find? (fun u => u.Username == username) with
    | none => .error (apperror.New 404 response.MsgRecordNotFound)
    | some u => .ok u

end dao

namespace config

/-- Modelled from the spec: the JWT section of the configuration.  The
`Config` struct present under the sources has no `JWT` field, yet the login
service reads `cfg.JWT.Secret` and `cfg.JWT.ExpireHours`; the spec states
the consumed inputs are the signing secret and the "token expiry duration
(default 24 hours)". -/
structure JWTConfig where
  Secret : String
  ExpireHours : Int
deriving DecidableEq, Repr

/-- Modelled from the spec: the default token expiry of 24 hours, used when
the configuration supplies no expiry duration. -/
def defaultExpireHours : Int := 24

/-- The slice of the application configuration the auth core consumes. -/
structure Config where
  JWT : JWTConfig
deriving DecidableEq, Repr

end config

namespace service

/-- Model of `service.LoginReq`. -/
structure LoginReq where
  Username : String
  Password : String
deriving DecidableEq, Repr

/-- Model of `service.LoginResp`; the `AccessToken` field carries the token
produced by `jwt.Sign` (its compact serialization is abstracted) and
`ExpiresIn` is `duration.Seconds()`. -/
structure LoginResp where
  Userid : Int
  Username : String
  NickName : String
  AccessToken : jwtlib.Token
  ExpiresIn : Int
  TokenType : String
deriving DecidableEq, Repr

/-- Model of `(*LoginReq).Login`: look the user up by username (any lookup
error is wrapped as `apperror.Wrap(err, 404, MsgUserNotFound)`), check the
password (`apperror.New(401, MsgAuthFailed)` on mismatch), compute the
token duration as `cfg.JWT.ExpireHours` hours, read the `jwt-secret`
context value (500 when absent) and sign the token. -/
def Login (db : dao.Store) (cfg : config.Config) (jwtSecret : Option String)
    (now : Int) (req : LoginReq) : Except GoError LoginResp :=
  match dao.GetUserByUserName db req.Username with
  | .error e => .error (apperror.Wrap e 404 response.MsgUserNotFound)
  | .ok user =>
    if !user.CompareSimple req.Password then
      .error (apperror.New 401 response.MsgAuthFailed)
    else
      let durationSec := cfg.JWT.ExpireHours * 3600
      match jwtSecret with
      | none => .error (apperror.New 500 "JWT secret 未配置")
      | some secret =>
        let token := jwt.Sign ⟨user.ID, user.Username⟩ secret durationSec now
        .ok ⟨user.ID, user.Username, user.NickName, token, durationSec,
             "Bearer"⟩

end service

namespace v1api

/-- Model of the `v1api.Login` handler after successful JSON binding: run
the login service; on error answer via `response.HandleError`, on success
answer `response.Success(c, "登录成功", resp)`.  Returns the HTTP response
and the login payload when present. -/
def Login (db : dao.Store) (cfg : config.Config) (jwtSecret : Option String)
    (now : Int) (req : service.LoginReq) :
    response.Resp × Option service.LoginResp :=
  match service.Login db cfg jwtSecret now req with
  | .error e => (response.HandleError e, none)
  | .ok resp => (response.Success "登录成功", some resp)

end v1api

namespace seed

/-- Model of `models.User` in the student variant used by the seeding code
(only the `Name` field matters to `CreateInitialData`). -/
structure User where
  Name : String
deriving DecidableEq, Repr

/-- The four baseline rows inserted by `service.CreateInitialData`. -/
def seedUsers : List User := [⟨"包子"⟩, ⟨"玉米"⟩, ⟨"花卷"⟩, ⟨"吐司"⟩]

/-- The student store: healthy with its rows, or failing its queries. -/
inductive Store where
  | healthy (rows : List User)
  | down
deriving Repr

/-- Model of `(*UserRepository).GetAll` on a healthy store: `Find` returns
every (not soft-deleted) row. -/
def GetAll (rows : List User) : List User := rows

/-- Model of `(*UserRepository).CreateBatch`: `CreateInBatches` appends the
given rows to the store. -/
def CreateBatch (rows : List User) (users : List User) : List User :=
  rows ++ users

/-- Model of `service.CreateInitialData`: fetch all rows (a failing query
aborts with a wrapped 500 error and inserts nothing); when any row already
exists, skip seeding; otherwise insert the four baseline rows.  Returns the
resulting store and the error, in state-passing style. -/
def CreateInitialData : Store → Store × Option GoError
  | .down => (.down, some (apperror.Wrap (.lib "gorm") 500 "检查现有数据失败"))
  | .healthy rows =>
    if (GetAll rows).length > 0 then
      (.healthy rows, none)
    else
      (.healthy (CreateBatch rows seedUsers), none)

end seed

/-! Theorems. -/

/-- Helper: `parseToken` on a correctly HS256-signed token whose registered
claims validate at `now` reaches the claim-extraction step, whose outcome
is decided by the unchecked `id` / `username` type assertions. -/
theorem parseToken_wellSigned (p : Payload) (secret : String) (now : Int)
    (hval : jwtlib.validateClaims p now = true) :
    jwt.parseToken (.wellFormed ⟨.HS256, p, jwtlib.hmacSign .HS256 p secret⟩)
        secret now =
      match lookupClaim p "id", lookupClaim p "username" with
      | some (.num userID), some (.str username) =>
        .next (some ⟨userID, username⟩)
      | _, _ => .panicked := by
  simp [jwt.parseToken, jwtlib.parse, jwt.secretFunc, Alg.isHMAC, hval]

/-- C1: a well-signed token whose expiry has passed (here: signed with
ttl = -1 second and verified immediately) is rejected with HTTP 403, but
with the `MsgTokenInvalid` body, not `MsgTokenExpired`: golang-jwt v5
`Parse` returns a non-nil error (`ErrTokenInvalidClaims` wrapping
`ErrTokenExpired`) for expired tokens, so the `err != nil` branch of
`parseToken` fires and the `MsgTokenExpired` branch is unreachable. -/
theorem expired_token_rejected_with_invalid_message :
    jwt.parseToken
        (.wellFormed (jwt.Sign ⟨1, "alice"⟩ "topsecret" (-1) 1000))
        "topsecret" 1000 =
      .reject (response.Error 403 response.MsgTokenInvalid) ∧
    (jwtlib.parse (.wellFormed (jwt.Sign ⟨1, "alice"⟩ "topsecret" (-1) 1000))
        (jwt.secretFunc "topsecret") 1000).err = some .invalidClaims := by
  decide

/-- C2: on a password mismatch the login pipeline answers HTTP 500 (body
code 500) with the `MsgAuthFailed` message — not HTTP 401 — because
`response.HandleError` has no `case 401` and falls through to
`InternalServerError`; on an unknown username it answers HTTP 404 with
`MsgUserNotFound` as documented. -/
theorem login_mismatch_yields_500_unknown_user_404 :
    (v1api.Login
        (.healthy [⟨1, "alice", "Alice", models.HashPassword "correct-pw",
                    "alice@example.com"⟩])
        ⟨⟨"sec", 24⟩⟩ (some "sec") 0 ⟨"alice", "wrong-pw"⟩).1 =
      ⟨500, 500, response.MsgAuthFailed⟩ ∧
    (v1api.Login
        (.healthy [⟨1, "alice", "Alice", models.HashPassword "correct-pw",
                    "alice@example.com"⟩])
        ⟨⟨"sec", 24⟩⟩ (some "sec") 0 ⟨"bob", "whatever"⟩).1 =
      ⟨404, 404, response.MsgUserNotFound⟩ := by
  decide

/-- C10: when the user-lookup query fails for any reason other than
record-not-found (modelled by the store being down, which the DAO wraps
with code 500 and `MsgDBQueryError`), `Login` re-wraps the error with code
404 and `MsgUserNotFound`, so the client sees HTTP 404 "user not found"
rather than an internal error. -/
theorem store_outage_reported_as_user_not_found (cfg : config.Config)
    (jwtSecret : Option String) (now : Int) (username password : String) :
    v1api.Login .down cfg jwtSecret now ⟨username, password⟩ =
      (⟨404, 404, response.MsgUserNotFound⟩, none) ∧
    service.Login .down cfg jwtSecret now ⟨username, password⟩ =
      .error (apperror.Wrap
        (apperror.Wrap (.lib "gorm") 500 response.MsgDBQueryError)
        404 response.MsgUserNotFound) :=
  ⟨rfl, rfl⟩

/-- C5: a token signed under secret `A` and verified under a different
secret `B` fails the signature check, and the middleware rejects the
request with HTTP 403 and the `MsgTokenInvalid` body. -/
theorem wrong_secret_rejected_as_invalid (c : jwt.Context) (A B : String)
    (ttl t0 now : Int) (hAB : A ≠ B) :
    jwt.parseToken (.wellFormed (jwt.Sign c A ttl t0)) B now =
      .reject (response.Error 403 response.MsgTokenInvalid) := by
  simp [jwt.parseToken, jwtlib.parse, jwt.Sign, jwt.secretFunc, Alg.isHMAC,
    jwtlib.hmacSign, jwtlib.MacTag.mk.injEq, hAB]

/-- C5 witness: concrete secrets "a" and "b". -/
theorem wrong_secret_rejected_as_invalid_witness :
    ("a" : String) ≠ "b" ∧
    jwt.parseToken (.wellFormed (jwt.Sign ⟨1, "u"⟩ "a" 3600 0)) "b" 100 =
      .reject (response.Error 403 response.MsgTokenInvalid) :=
  ⟨by decide, wrong_secret_rejected_as_invalid ⟨1, "u"⟩ "a" "b" 3600 0 100
    (by decide)⟩

/-- C6: a token whose header declares a signing algorithm outside the HMAC
family (e.g. `none` or RSA) makes the keyfunc fail before any signature
check, so `Parse` errors out and the request is rejected with HTTP 403 and
`MsgTokenInvalid`, regardless of the token signature; such a token is never
accepted. -/
theorem non_hmac_alg_rejected (t : jwtlib.Token) (secret : String)
    (now : Int) (halg : t.alg.isHMAC = false) :
    jwt.parseToken (.wellFormed t) secret now =
      .reject (response.Error 403 response.MsgTokenInvalid) := by
  simp [jwt.parseToken, jwtlib.parse, jwt.secretFunc, halg]

/-- C6 witness: an unsigned (`alg = none`) token. -/
theorem non_hmac_alg_rejected_witness :
    Alg.isHMAC .algNone = false ∧
    jwt.parseToken (.wellFormed ⟨.algNone, [("id", .num 1)],
        ⟨.algNone, [("id", .num 1)], "spoof"⟩⟩) "secret" 0 =
      .reject (response.Error 403 response.MsgTokenInvalid) :=
  ⟨by decide, non_hmac_alg_rejected ⟨.algNone, [("id", .num 1)],
    ⟨.algNone, [("id", .num 1)], "spoof"⟩⟩ "secret" 0 (by decide)⟩

/-- C3 counterexample: at `now = issuedAt + ttl` the instant `now` has not
yet passed `issuedAt + ttl`, so the claim predicts a successful round trip;
but the v5 expiry check requires `now` strictly before `exp`, so the token
is already rejected (as 403 `MsgTokenInvalid`): the claim fails at the
boundary.  Concretely: signed at 0 with ttl = 10, verified at 10. -/
theorem round_trip_fails_at_expiry_boundary :
    jwt.parseToken (.wellFormed (jwt.Sign ⟨1, "alice"⟩ "s" 10 0)) "s" 10 =
      .reject (response.Error 403 response.MsgTokenInvalid) ∧
    jwt.parseToken (.wellFormed (jwt.Sign ⟨1, "alice"⟩ "s" 10 0)) "s" 10 ≠
      .next (some ⟨1, "alice"⟩) := by
  decide

/-- C3 (amended): for every claims pair, secret and ttl > 0, verifying the
token produced by `Sign` under the same secret succeeds whenever
`issuedAt ≤ now < issuedAt + ttl`, and yields exactly the signed subject id
and username, which the middleware injects into the request context. -/
theorem sign_verify_round_trip (id : Int) (un secret : String)
    (ttl t0 now : Int) (_httl : 0 < ttl) (hlo : t0 ≤ now)
    (hhi : now < t0 + ttl) :
    jwt.parseToken (.wellFormed (jwt.Sign ⟨id, un⟩ secret ttl t0)) secret
        now = .next (some ⟨id, un⟩) := by
  have hval : jwtlib.validateClaims
      (jwt.Sign ⟨id, un⟩ secret ttl t0).payload now = true := by
    simp [jwt.Sign, jwtlib.validateClaims, jwtlib.expOk, jwtlib.nbfOk,
      lookupClaim, hlo, hhi]
  have h := parseToken_wellSigned (jwt.Sign ⟨id, un⟩ secret ttl t0).payload
    secret now hval
  simpa [jwt.Sign, lookupClaim] using h

/-- C3 witness: id 7, username "alice", ttl one hour, verified mid-window. -/
theorem sign_verify_round_trip_witness :
    (0 : Int) < 3600 ∧ (1000 : Int) ≤ 1500 ∧ (1500 : Int) < 1000 + 3600 ∧
    jwt.parseToken (.wellFormed (jwt.Sign ⟨7, "alice"⟩ "k" 3600 1000)) "k"
        1500 = .next (some ⟨7, "alice"⟩) :=
  ⟨by decide, by decide, by decide,
    sign_verify_round_trip 7 "alice" "k" 3600 1000 1500 (by decide)
      (by decide) (by decide)⟩

/-- C4: for every request, if the final segment of the URL path is in the
allow-list the middleware proceeds (without inspecting any header — the
header is arbitrary here and the injected context is empty); otherwise a
request with no `Authorization` header is rejected with HTTP 403 and
`MsgTokenMissing`, aborting the chain so no downstream handler runs. -/
theorem allowlist_and_missing_header (skip : List String) (req : Request)
    (secret : String) (now : Int) :
    (skip.contains ((goSplit req.path '/').getLastD "") = true →
      jwt.Token skip req secret now = .next none) ∧
    (skip.contains ((goSplit req.path '/').getLastD "") = false →
      req.header = .empty →
      jwt.Token skip req secret now =
        .reject ⟨403, 403, response.MsgTokenMissing⟩) := by
  constructor
  · intro h
    simp only [jwt.Token]
    rw [h]
    rfl
  · intro h hempty
    simp only [jwt.Token]
    rw [h, hempty]
    rfl

/-- C4 witness: with the bootstrap allow-list, `/v1/login` proceeds even
with a garbage bearer header, and `/v1/user` with no header is rejected
with 403 `MsgTokenMissing`. -/
theorem allowlist_and_missing_header_witness :
    jwt.Token jwt.SkipRouter ⟨"/v1/login", .bearer .garbage⟩ "s" 0 =
      .next none ∧
    jwt.Token jwt.SkipRouter ⟨"/v1/user", .empty⟩ "s" 0 =
      .reject ⟨403, 403, response.MsgTokenMissing⟩ :=
  ⟨(allowlist_and_missing_header jwt.SkipRouter
      ⟨"/v1/login", .bearer .garbage⟩ "s" 0).1 (by decide),
   (allowlist_and_missing_header jwt.SkipRouter
      ⟨"/v1/user", .empty⟩ "s" 0).2 (by decide) rfl⟩

/-- C7: the token ttl is taken from the configuration (`ExpireHours`
hours); with the spec default of 24 hours, a successful login signs a token
whose `exp` claim is exactly 24 hours (86400 seconds) after issuance, and
reports `ExpiresIn = 86400`. -/
theorem default_ttl_is_24_hours (u : models.User) (pw s : String)
    (now : Int) (cfg : config.Config)
    (hdef : cfg.JWT.ExpireHours = config.defaultExpireHours)
    (hpw : u.Password = models.HashPassword pw) :
    service.Login (.healthy [u]) cfg (some s) now ⟨u.Username, pw⟩ =
      .ok ⟨u.ID, u.Username, u.NickName,
           jwt.Sign ⟨u.ID, u.Username⟩ s 86400 now, 86400, "Bearer"⟩ ∧
    lookupClaim (jwt.Sign ⟨u.ID, u.Username⟩ s 86400 now).payload "exp" =
      some (.num (now + 24 * 3600)) := by
  constructor
  · simp [service.Login, dao.GetUserByUserName, List.find?,
      models.User.CompareSimple, hpw, hdef, config.defaultExpireHours]
  · simp [jwt.Sign, lookupClaim]

/-- C7 witness: a concrete user and the default configuration. -/
theorem default_ttl_is_24_hours_witness :
    (⟨⟨"sec", 24⟩⟩ : config.Config).JWT.ExpireHours =
      config.defaultExpireHours ∧
    (⟨1, "alice", "Alice", models.HashPassword "pw", "a@x"⟩ :
        models.User).Password = models.HashPassword "pw" ∧
    service.Login (.healthy [⟨1, "alice", "Alice",
        models.HashPassword "pw", "a@x"⟩]) ⟨⟨"sec", 24⟩⟩ (some "sec") 500
        ⟨"alice", "pw"⟩ =
      .ok ⟨1, "alice", "Alice", jwt.Sign ⟨1, "alice"⟩ "sec" 86400 500,
           86400, "Bearer"⟩ :=
  ⟨by decide, by decide,
    (default_ttl_is_24_hours ⟨1, "alice", "Alice",
        models.HashPassword "pw", "a@x"⟩ "pw" "sec" 500 ⟨⟨"sec", 24⟩⟩
        (by decide) (by decide)).1⟩

/-- C8: seeding is skipped entirely as soon as any record exists, and the
bootstrap seeding step is idempotent: running it a second time returns the
exact store (hence the same record count) produced by the first run, never
duplicating seed rows. -/
theorem seeding_skipped_and_idempotent (rows : List seed.User) :
    (0 < rows.length →
      seed.CreateInitialData (.healthy rows) = (.healthy rows, none)) ∧
    seed.CreateInitialData (seed.CreateInitialData (.healthy rows)).1 =
      seed.CreateInitialData (.healthy rows) := by
  constructor
  · intro h
    simp [seed.CreateInitialData, seed.GetAll, h]
  · cases rows with
    | nil => rfl
    | cons a l =>
      have hpos : 0 < (a :: l).length := Nat.succ_pos _
      simp [seed.CreateInitialData, seed.GetAll, hpos]

/-- C8 witness: a store already holding one record. -/
theorem seeding_skipped_and_idempotent_witness :
    0 < ([⟨"existing"⟩] : List seed.User).length ∧
    seed.CreateInitialData (.healthy [⟨"existing"⟩]) =
      (.healthy [⟨"existing"⟩], none) :=
  ⟨by decide,
    (seeding_skipped_and_idempotent [⟨"existing"⟩]).1 (by decide)⟩

/-- C9: a token that is correctly HS256-signed under the shared secret and
whose registered claims validate, but whose claim set lacks a numeric `id`
claim or a string `username` claim, makes the middleware panic (unchecked
type assertions on the claim values) instead of answering a 403. -/
theorem missing_identity_claims_panic (p : Payload) (secret : String)
    (now : Int) (hval : jwtlib.validateClaims p now = true)
    (hmiss : (∀ n : Int, lookupClaim p "id" ≠ some (.num n)) ∨
             (∀ s : String, lookupClaim p "username" ≠ some (.str s))) :
    jwt.parseToken
        (.wellFormed ⟨.HS256, p, jwtlib.hmacSign .HS256 p secret⟩) secret
        now = .panicked := by
  rw [parseToken_wellSigned p secret now hval]
  rcases hmiss with h | h
  · cases hid : lookupClaim p "id" with
    | none => simp [hid]
    | some v =>
      cases v with
      | num n => exact absurd hid (h n)
      | str s => simp [hid]
  · cases hun : lookupClaim p "username" with
    | none =>
      cases hid : lookupClaim p "id" with
      | none => simp [hid, hun]
      | some v => cases v <;> simp [hid, hun]
    | some v =>
      cases v with
      | num n =>
        cases hid : lookupClaim p "id" with
        | none => simp [hid, hun]
        | some w => cases w <;> simp [hid, hun]
      | str s => exact absurd hun (h s)

/-- C9 witness: a well-signed token whose only claim is a string
`username` (no `id` claim at all); its claims validate (no `exp`/`nbf`)
and the middleware panics. -/
theorem missing_identity_claims_panic_witness :
    jwtlib.validateClaims [("username", .str "alice")] 0 = true ∧
    jwt.parseToken (.wellFormed ⟨.HS256, [("username", .str "alice")],
        jwtlib.hmacSign .HS256 [("username", .str "alice")] "s"⟩) "s" 0 =
      .panicked :=
  ⟨by decide,
    missing_identity_claims_panic [("username", .str "alice")] "s" 0
      (by decide)
      (Or.inl (fun n h => by simp [lookupClaim] at h))⟩
